import Mathlib

/-!
Shallow embedding of the per-session video encoder of ffmpegserver.js
(src/server/video-encoder.js).

The embedding covers, translated directly from the source:
  - the name sanitizer `safeName` (line 85),
  - the per-session mutable state of the `VideoEncoder` closure
    (count, name, frames, numWriting, numErrors, ended, framerate,
    extension, codec, connected, ffmpegArguments) together with the
    in-flight write set that the Node event loop holds for the session,
  - the message handlers `handleStart`, `handleFrame`, `handleEnd`,
    the write-completion callback of `fs.writeFile` in `handleFrame`,
    `checkForEnd`, `cleanup` and `disconnect`, as a step function over
    session states driven by an event alphabet that includes arbitrary
    interleavings of write completions,
  - the four-stage assembly pipeline started by `checkForEnd`
    (frame-sequence encode, `createVfrVideo`, `createCfrVideo`,
    `createFinalVideo`), as a function from the four external outcomes
    to the stages attempted, the events emitted and the resulting file
    set,
  - the progress computation of `handleFFMpegFrame`, over an explicit
    model of JavaScript number division that records the non-finite
    results of dividing by zero.

File-system effects are modelled as a `Finset String` of existing paths.
-/

namespace VideoEncoder

/-- Server configuration read by the encoder: `options.frameDir`,
`options.videoDir`, `options.keepFrames`,
`options.allowArbitraryFfmpegArguments`. -/
structure Options where
  frameDir : String
  videoDir : String
  keepFrames : Bool
  allowArbitraryFfmpegArguments : Bool
deriving DecidableEq

/-- `path.join(dir, file)` as the encoder uses it (both arguments are
plain relative segments, so join is separator insertion). -/
def pathJoin (dir file : String) : String := dir ++ "/" ++ file

/-- The character class `[0-9a-zA-Z-.]` of the regular expression in
`safeName` (src/server/video-encoder.js line 86). -/
def isSafeChar (c : Char) : Bool :=
  (decide ('0' ≤ c) && decide (c ≤ '9')) ||
  (decide ('a' ≤ c) && decide (c ≤ 'z')) ||
  (decide ('A' ≤ c) && decide (c ≤ 'Z')) ||
  c == '-' || c == '.'

/-- `safeName` (line 85): `name.substr(0, 30).replace(/[^0-9a-zA-Z-.]/g, "_")`.
Truncate to 30 characters, then replace every character outside the safe
class by an underscore. -/
def safeName (s : String) : String :=
  String.mk ((s.data.take 30).map fun c => if isSafeChar c then c else '_')

/-- Claim C6 (counterexample): the sanitized name does not consist only of
characters in `[0-9A-Za-z-.]`: on input "a b" the space is replaced by an
underscore, and the underscore is outside that class. -/
theorem claim6_counterexample :
    '_' ∈ (safeName "a b").data ∧ isSafeChar '_' = false := by decide

/-- Claim C6 (amended): for every input title, the sanitized name has
length at most 30 and every character of it is either in `[0-9A-Za-z-.]`
or is the underscore that replaced an excluded character of the
truncated input. -/
theorem claim6_safeName_length_and_alphabet (s : String) :
    (safeName s).length ≤ 30 ∧
      ∀ c ∈ (safeName s).data, isSafeChar c = true ∨ c = '_' := by
  constructor
  · have h : (safeName s).length
        = ((s.data.take 30).map fun c => if isSafeChar c then c else '_').length := rfl
    rw [h, List.length_map, List.length_take]
    exact min_le_left _ _
  · intro c hc
    simp only [safeName, List.mem_map] at hc
    obtain ⟨a, _, rfl⟩ := hc
    by_cases h : isSafeChar a
    · left; simp [h]
    · right; simp [h]

/-- Witness for the amended claim C6 at the concrete title "a b". -/
theorem claim6_witness :
    (safeName "a b").length ≤ 30 ∧
      ∀ c ∈ (safeName "a b").data, isSafeChar c = true ∨ c = '_' :=
  claim6_safeName_length_and_alphabet "a b"

/-- The fixed data-URL header expected on every frame payload
(src/server/video-encoder.js line 296). -/
def EXPECTED_HEADER : String := "data:image/png;base64,"

/-- The `dataURL.substr(0, EXPECTED_HEADER.length) !== EXPECTED_HEADER`
check of `handleFrame` (line 302), on the character sequences. -/
def hasHeader (dataURL : String) : Bool :=
  dataURL.data.take EXPECTED_HEADER.data.length == EXPECTED_HEADER.data

/-- Payload of a `start` message; absent JSON fields are `none`
(`data = data || {}` makes a missing payload the all-absent record). -/
structure StartData where
  name : Option String := none
  framerate : Option Nat := none
  extension : Option String := none
  codec : Option String := none
  ffmpegArguments : Option (List String) := none
deriving DecidableEq

/-- One in-flight `fs.writeFile` callback of `handleFrame`: the frame
number and file name captured by the closure (lines 306-311). -/
structure PendingWrite where
  frameNum : Nat
  filename : String
deriving DecidableEq

/-- Observable actions of a handler: messages sent with `sendCmd`,
file deletions through `utils.deleteNoFail`, the scheduling of an
asynchronous frame write, and the construction of the stage-1
`FFMpegRunner` that begins pipeline assembly (line 168). -/
inductive Effect where
  | errorMsg (msg : String)
  | frameAck (frameNum : Nat)
  | scheduleWrite (frameNum : Nat) (filename : String)
  | deleteFile (filepath : String)
  | startPipeline (name : Option String) (extension : String) (framerate : Nat)
deriving DecidableEq

/-- The closure variables of one `VideoEncoder` (lines 66-81), plus the
multiset of in-flight write callbacks the event loop holds for it.
`numWriting` is kept as the code keeps it, as a separate counter. -/
structure EncoderState where
  count : Nat := 0
  name : Option String := none
  frames : List String := []
  numWriting : Nat := 0
  numErrors : Nat := 0
  ended : Bool := false
  framerate : Nat := 30
  extension : String := ".mp4"
  codec : Option String := none
  connected : Bool := true
  ffmpegArguments : Option (List String) := none
  pending : List PendingWrite := []
deriving DecidableEq

/-- `checkForEnd` (lines 143-175): when `ended && numWriting === 0`, the
stage-1 encode runner is created, which begins pipeline assembly; the
session fields are not modified. -/
def checkForEnd (s : EncoderState) : List Effect :=
  if s.ended = true ∧ s.numWriting = 0 then
    [Effect.startPipeline s.name s.extension s.framerate]
  else []

/-- `handleStart` (lines 89-112). The already-in-progress check comes
first; on the rejected `ffmpegArguments` path the framerate, extension
and codec fields have already been overwritten, faithfully to the code. -/
def handleStart (o : Options) (id : String) (s : EncoderState) (d : StartData) :
    EncoderState × List Effect :=
  if s.name.isSome then (s, [Effect.errorMsg "video already in progress"])
  else
    let fr := match d.framerate with
      | none => 30
      | some n => if n = 0 then 30 else n
    let s1 := { s with framerate := fr,
                       extension := safeName (d.extension.getD ".mp4"),
                       codec := d.codec }
    if o.allowArbitraryFfmpegArguments then
      ({ s1 with ffmpegArguments := d.ffmpegArguments,
                 count := 0, numErrors := 0, ended := false,
                 name := some (safeName ((d.name.getD "untitled") ++ "-" ++ id)),
                 frames := [] }, [])
    else if d.ffmpegArguments.isSome then
      (s1, [Effect.errorMsg "ffmpegArguments not allowed without --allow-arbitrary-ffmpeg-argumments command line option"])
    else
      ({ s1 with count := 0, numErrors := 0, ended := false,
                 name := some (safeName ((d.name.getD "untitled") ++ "-" ++ id)),
                 frames := [] }, [])

/-- The file deletions `cleanup` performs (lines 114-128): the recorded
frame files when frames exist and are not kept, then five fixed paths
under `options.videoDir` derived from the session name. -/
def cleanupDeletes (o : Options) (nm : String) (frames : List String) : List String :=
  (if frames ≠ [] ∧ o.keepFrames = false then frames else []) ++
  [ pathJoin o.videoDir ("ts-" ++ nm ++ ".txt"),
    pathJoin o.videoDir ("vfr-" ++ nm ++ ".mp4"),
    pathJoin o.videoDir ("cfr-" ++ nm ++ ".mp4"),
    pathJoin o.videoDir (nm ++ ".mp3"),
    pathJoin o.videoDir (nm ++ ".mp4") ]

/-- `cleanup` (lines 114-128). When `name` is `undefined`, JavaScript
string concatenation stringifies it, hence the `"undefined"` default. -/
def cleanup (o : Options) (s : EncoderState) : EncoderState × List Effect :=
  let nm := s.name.getD "undefined"
  let dels := cleanupDeletes o nm s.frames
  let s1 := if s.frames ≠ [] ∧ o.keepFrames = false then { s with frames := [] } else s
  (s1, dels.map Effect.deleteFile)

/-- `handleFrame` (lines 297-310), the synchronous part: reject when not
started, drop silently on a bad data URL, otherwise assign `count++` as
the frame number and schedule the asynchronous write. -/
def handleFrame (o : Options) (s : EncoderState) (dataURL : String) :
    EncoderState × List Effect :=
  match s.name with
  | none => (s, [Effect.errorMsg "video not started"])
  | some nm =>
    if hasHeader dataURL = false then (s, [])
    else
      let frameNum := s.count
      let filename := pathJoin o.frameDir (nm ++ "-" ++ toString frameNum ++ ".png")
      ({ s with count := s.count + 1,
                numWriting := s.numWriting + 1,
                pending := s.pending ++ [⟨frameNum, filename⟩] },
       [Effect.scheduleWrite frameNum filename])

/-- The `fs.writeFile` completion callback of `handleFrame`
(lines 311-328), fired for the in-flight write at position `i`, with
`ok = false` for the error branch. On success after a disconnect the
just-written file is deleted and the callback returns early, skipping
the `numWriting === 0` check. -/
def handleWriteComplete (s : EncoderState) (i : Nat) (ok : Bool) :
    EncoderState × List Effect :=
  match s.pending[i]? with
  | none => (s, [])
  | some w =>
    let s1 := { s with pending := s.pending.eraseIdx i,
                       numWriting := s.numWriting - 1 }
    match ok with
    | false =>
      let s2 := { s1 with numErrors := s1.numErrors + 1 }
      (s2, if s2.numWriting = 0 then checkForEnd s2 else [])
    | true =>
      if s1.connected = false then
        (s1, [Effect.deleteFile w.filename])
      else
        let s2 := { s1 with frames := s1.frames ++ [w.filename] }
        (s2, Effect.frameAck w.frameNum ::
               (if s2.numWriting = 0 then checkForEnd s2 else []))

/-- `handleEnd` (lines 331-337): reject when not started, else set
`ended` and evaluate the end condition. -/
def handleEnd (s : EncoderState) : EncoderState × List Effect :=
  match s.name with
  | none => (s, [Effect.errorMsg "video not started"])
  | some _ =>
    let s1 := { s with ended := true }
    (s1, checkForEnd s1)

/-- `encoders.splice(encoders.indexOf(self), 1)` of `disconnect`
(lines 392-393): `indexOf` finds the first occurrence and `splice`
removes exactly that one, which is `List.erase`; when the element is
absent, `indexOf` returns -1 and `splice(-1, 1)` removes the last
element of the array. -/
def spliceRemove (l : List String) (x : String) : List String :=
  if x ∈ l then l.erase x else l.dropLast

/-- The world around one session: its unique id, its encoder state, the
process-wide `encoders` registry (as the ids of the live encoders) and
the set of files existing on disk. -/
structure World where
  selfId : String
  enc : EncoderState := {}
  registry : List String
  fs : Finset String := ∅
deriving DecidableEq

/-- Events the session reacts to: the client messages `start`, `frame`
and `end`, the completion (in any order, hence the index) of an
in-flight frame write, and the disconnection of the client. -/
inductive Event where
  | start (d : StartData)
  | frame (dataURL : String)
  | endCmd
  | writeComplete (i : Nat) (ok : Bool)
  | disconnect
deriving DecidableEq

/-- Apply the `deleteFile` effects of a handler to the file set. -/
def applyDeletes (fs : Finset String) (effs : List Effect) : Finset String :=
  effs.foldl
    (fun acc e => match e with
      | Effect.deleteFile p => acc.erase p
      | _ => acc) fs

/-- One dispatch of the session (lines 367-385 route messages to the
handlers; `disconnect` is lines 390-402). A successful write completion
first materializes the file on disk, then the callback may delete it. -/
def step (o : Options) (w : World) (ev : Event) : World × List Effect :=
  match ev with
  | Event.start d =>
    let r := handleStart o w.selfId w.enc d
    ({ w with enc := r.1 }, r.2)
  | Event.frame u =>
    let r := handleFrame o w.enc u
    ({ w with enc := r.1 }, r.2)
  | Event.endCmd =>
    let r := handleEnd w.enc
    ({ w with enc := r.1 }, r.2)
  | Event.writeComplete i ok =>
    let fs1 := match w.enc.pending[i]? with
      | some pw => if ok then insert pw.filename w.fs else w.fs
      | none => w.fs
    let r := handleWriteComplete w.enc i ok
    ({ w with enc := r.1, fs := applyDeletes fs1 r.2 }, r.2)
  | Event.disconnect =>
    let e1 := { w.enc with connected := false }
    let reg := spliceRemove w.registry w.selfId
    let r := cleanup o e1
    ({ w with enc := r.1, registry := reg, fs := applyDeletes w.fs r.2 }, r.2)

/-- Run a sequence of events, accumulating the emitted effects. -/
def runTrace (o : Options) (w : World) : List Event → World × List Effect
  | [] => (w, [])
  | ev :: evs =>
    let r := step o w ev
    let rest := runTrace o r.1 evs
    (rest.1, r.2 ++ rest.2)

/-- `true` when the effects of a step include the construction of the
stage-1 encode runner, i.e. the beginning of pipeline assembly. -/
def pipelineStarts (effs : List Effect) : Bool :=
  effs.any fun e => match e with
    | Effect.startPipeline _ _ _ => true
    | _ => false

/-- The frame numbers of the writes a trace schedules, in order. -/
def scheduledNums (effs : List Effect) : List Nat :=
  effs.filterMap fun e => match e with
    | Effect.scheduleWrite n _ => some n
    | _ => none

theorem pipelineStarts_checkForEnd (s : EncoderState) :
    pipelineStarts (checkForEnd s) = true ↔ (s.ended = true ∧ s.numWriting = 0) := by
  unfold checkForEnd
  split_ifs with h
  · simpa [pipelineStarts] using h
  · simpa [pipelineStarts] using h

theorem pipelineStarts_gate (s : EncoderState) :
    pipelineStarts (if s.numWriting = 0 then checkForEnd s else []) = true
      ↔ (s.ended = true ∧ s.numWriting = 0) := by
  split_ifs with h
  · exact pipelineStarts_checkForEnd s
  · constructor
    · intro hfalse; cases hfalse
    · intro hc; exact absurd hc.2 h

theorem pipelineStarts_cons_frameAck (n : Nat) (l : List Effect) :
    pipelineStarts (Effect.frameAck n :: l) = pipelineStarts l := rfl

theorem cleanup_snd (o : Options) (s : EncoderState) :
    (cleanup o s).2
      = (cleanupDeletes o (s.name.getD "undefined") s.frames).map Effect.deleteFile := rfl

theorem step_disconnect_snd (o : Options) (w : World) :
    (step o w Event.disconnect).2 = (cleanup o { w.enc with connected := false }).2 := rfl

theorem pipelineStarts_deleteFiles (l : List String) :
    pipelineStarts (l.map Effect.deleteFile) = false := by
  induction l with
  | nil => rfl
  | cons a t ih => simp [pipelineStarts, List.any_cons]

/-- Claim C1: for every session state and every event (so for every
interleaving of frame-write completions), pipeline assembly begins in a
step if and only if, after that step, the end command has been received
(`ended`) and the in-flight write counter `numWriting` is zero. The
first conjunct is the only-if direction and in particular shows that an
`end` received while writes are pending starts nothing; the second
conjunct shows that any step of a connected session that establishes
the condition — in particular the completion that brings the counter to
zero after `end` — does start assembly. -/
theorem claim1_assembly_iff_end_condition (o : Options) (w : World) (ev : Event) :
    (pipelineStarts (step o w ev).2 = true →
      (step o w ev).1.enc.ended = true ∧ (step o w ev).1.enc.numWriting = 0)
    ∧ (w.enc.connected = true →
      ¬(w.enc.ended = true ∧ w.enc.numWriting = 0) →
      ((step o w ev).1.enc.ended = true ∧ (step o w ev).1.enc.numWriting = 0) →
      pipelineStarts (step o w ev).2 = true) := by
  cases ev with
  | start d =>
    constructor
    · intro h
      exfalso
      revert h
      simp only [step]
      unfold handleStart
      split_ifs <;> simp [pipelineStarts]
    · intro _ hpre
      simp only [step]
      unfold handleStart
      split_ifs with h1 h2 h3
      · exact fun hpost => absurd hpost hpre
      · simp
      · exact fun hpost => absurd hpost hpre
      · simp
  | frame u =>
    constructor
    · intro h
      exfalso
      revert h
      simp only [step]
      unfold handleFrame
      cases hn : w.enc.name with
      | none => simp [pipelineStarts]
      | some nm => split_ifs <;> simp [pipelineStarts]
    · intro _ hpre
      simp only [step]
      unfold handleFrame
      cases hn : w.enc.name with
      | none => exact fun hpost => absurd hpost hpre
      | some nm =>
        split_ifs with h1
        · exact fun hpost => absurd hpost hpre
        · intro hpost
          exact absurd hpost.2 (Nat.succ_ne_zero _)
  | endCmd =>
    constructor
    · intro h
      revert h
      simp only [step]
      unfold handleEnd
      cases hn : w.enc.name with
      | none => simp [pipelineStarts]
      | some nm => exact fun h => (pipelineStarts_checkForEnd _).mp h
    · intro _ hpre
      simp only [step]
      unfold handleEnd
      cases hn : w.enc.name with
      | none => exact fun hpost => absurd hpost hpre
      | some nm => exact fun hpost => (pipelineStarts_checkForEnd _).mpr hpost
  | writeComplete i ok =>
    constructor
    · intro h
      revert h
      simp only [step]
      unfold handleWriteComplete
      cases hp : w.enc.pending[i]? with
      | none => simp [pipelineStarts]
      | some pw =>
        cases ok with
        | false => exact fun h => (pipelineStarts_gate _).mp h
        | true =>
          cases hcw : w.enc.connected with
          | false => simp [pipelineStarts]
          | true =>
            exact fun h => (pipelineStarts_gate _).mp h
    · intro hconn hpre
      simp only [step]
      unfold handleWriteComplete
      cases hp : w.enc.pending[i]? with
      | none => exact fun hpost => absurd hpost hpre
      | some pw =>
        cases ok with
        | false => exact fun hpost => (pipelineStarts_gate _).mpr hpost
        | true =>
          cases hcw : w.enc.connected with
          | false =>
            rw [hcw] at hconn
            exact absurd hconn (by simp)
          | true =>
            exact fun hpost => (pipelineStarts_gate _).mpr hpost
  | disconnect =>
    constructor
    · intro h
      exfalso
      rw [step_disconnect_snd, cleanup_snd, pipelineStarts_deleteFiles] at h
      exact Bool.noConfusion h
    · intro _ hpre hpost
      refine absurd ?_ hpre
      revert hpost
      simp only [step]
      unfold cleanup
      split_ifs <;> exact fun hpost => hpost

/-- Witness for claim C1: in a started session with no writes in flight,
the `end` command itself begins pipeline assembly. -/
theorem claim1_witness :
    pipelineStarts
      (step ⟨"f", "v", false, false⟩
        { selfId := "w", enc := { name := some "n" }, registry := ["w"] }
        Event.endCmd).2 = true :=
  (claim1_assembly_iff_end_condition ⟨"f", "v", false, false⟩
      { selfId := "w", enc := { name := some "n" }, registry := ["w"] }
      Event.endCmd).2 (by decide) (by decide) (by decide)

theorem checkForEnd_sched (s : EncoderState) : scheduledNums (checkForEnd s) = [] := by
  unfold checkForEnd
  split_ifs <;> rfl

theorem gate_sched (s : EncoderState) :
    scheduledNums (if s.numWriting = 0 then checkForEnd s else []) = [] := by
  split_ifs
  · exact checkForEnd_sched s
  · rfl

theorem ack_gate_sched (n : Nat) (s : EncoderState) :
    scheduledNums
        (Effect.frameAck n :: (if s.numWriting = 0 then checkForEnd s else [])) = [] := by
  have h : scheduledNums (Effect.frameAck n :: (if s.numWriting = 0 then checkForEnd s else []))
      = scheduledNums (if s.numWriting = 0 then checkForEnd s else []) := rfl
  rw [h, gate_sched]

theorem deleteFiles_sched (l : List String) :
    scheduledNums (l.map Effect.deleteFile) = [] := by
  induction l with
  | nil => rfl
  | cons a t ih => simp [scheduledNums]

theorem cleanup_fst_count (o : Options) (s : EncoderState) :
    (cleanup o s).1.count = s.count := by
  unfold cleanup; split_ifs <;> rfl

theorem cleanup_fst_name (o : Options) (s : EncoderState) :
    (cleanup o s).1.name = s.name := by
  unfold cleanup; split_ifs <;> rfl

theorem scheduledNums_append (a b : List Effect) :
    scheduledNums (a ++ b) = scheduledNums a ++ scheduledNums b :=
  List.filterMap_append a b _

/-- Once a session has a name, no event removes it: `handleStart` is
rejected, the other handlers never write `name`. -/
theorem step_preserves_name (o : Options) (w : World) (ev : Event)
    (h : w.enc.name.isSome = true) : (step o w ev).1.enc.name.isSome = true := by
  cases ev with
  | start d =>
    simp only [step]
    unfold handleStart
    rw [if_pos h]
    exact h
  | frame u =>
    obtain ⟨nm, hnm⟩ := Option.isSome_iff_exists.mp h
    simp only [step]
    unfold handleFrame
    simp only [hnm]
    split_ifs <;> simp [hnm]
  | endCmd =>
    obtain ⟨nm, hnm⟩ := Option.isSome_iff_exists.mp h
    simp only [step]
    unfold handleEnd
    simp only [hnm]
    rfl
  | writeComplete i ok =>
    simp only [step]
    unfold handleWriteComplete
    cases hp : w.enc.pending[i]? with
    | none => simp only [hp]; exact h
    | some pw =>
      simp only [hp]
      cases ok with
      | false => exact h
      | true =>
        by_cases hcw : w.enc.connected = false
        · rw [if_pos hcw]; exact h
        · rw [if_neg hcw]; exact h
  | disconnect =>
    simp only [step]
    rw [show (cleanup o { w.enc with connected := false }).1.name
          = ({ w.enc with connected := false } : EncoderState).name
        from cleanup_fst_name o _]
    exact h

/-- One step schedules either nothing or exactly the write with index
`count`, and advances `count` by the number of writes it schedules. -/
theorem step_sched (o : Options) (w : World) (ev : Event)
    (h : w.enc.name.isSome = true) :
    ∃ k, scheduledNums (step o w ev).2 = List.range' w.enc.count k
      ∧ (step o w ev).1.enc.count = w.enc.count + k := by
  cases ev with
  | start d =>
    simp only [step]
    unfold handleStart
    rw [if_pos h]
    exact ⟨0, rfl, rfl⟩
  | frame u =>
    obtain ⟨nm, hnm⟩ := Option.isSome_iff_exists.mp h
    simp only [step]
    unfold handleFrame
    simp only [hnm]
    by_cases hh : hasHeader u = false
    · rw [if_pos hh]; exact ⟨0, rfl, rfl⟩
    · rw [if_neg hh]; exact ⟨1, rfl, rfl⟩
  | endCmd =>
    obtain ⟨nm, hnm⟩ := Option.isSome_iff_exists.mp h
    simp only [step]
    unfold handleEnd
    simp only [hnm]
    exact ⟨0, (checkForEnd_sched _).trans rfl, rfl⟩
  | writeComplete i ok =>
    simp only [step]
    unfold handleWriteComplete
    cases hp : w.enc.pending[i]? with
    | none => simp only [hp]; exact ⟨0, rfl, rfl⟩
    | some pw =>
      cases ok with
      | false =>
        simp only [hp]
        refine ⟨0, ?_, rfl⟩
        exact (gate_sched { w.enc with numWriting := w.enc.numWriting - 1, numErrors := w.enc.numErrors + 1, pending := w.enc.pending.eraseIdx i }).trans rfl
      | true =>
        simp only [hp]
        by_cases hcw : w.enc.connected = false
        · rw [if_pos hcw]; exact ⟨0, rfl, rfl⟩
        · rw [if_neg hcw]
          refine ⟨0, ?_, rfl⟩
          exact (ack_gate_sched pw.frameNum { w.enc with frames := w.enc.frames ++ [pw.filename], numWriting := w.enc.numWriting - 1, pending := w.enc.pending.eraseIdx i }).trans rfl
  | disconnect =>
    simp only [step]
    refine ⟨0, ?_, ?_⟩
    · rw [cleanup_snd, deleteFiles_sched]; rfl
    · rw [show (cleanup o { w.enc with connected := false }).1.count
            = ({ w.enc with connected := false } : EncoderState).count
          from cleanup_fst_count o _]
      rfl

/-- Claim C5: in a started session, over any event interleaving (write
completions in any order, with any success values, rejected restarts,
even disconnects), the frame numbers assigned to accepted frame
submissions are exactly the consecutive values `count, count+1, ...`:
strictly increasing, assigned synchronously at receipt, never reused
or reassigned. -/
theorem claim5_frame_indices (o : Options) (w : World) (evs : List Event)
    (h : w.enc.name.isSome = true) :
    scheduledNums (runTrace o w evs).2
      = List.range' w.enc.count ((runTrace o w evs).1.enc.count - w.enc.count)
    ∧ w.enc.count ≤ (runTrace o w evs).1.enc.count := by
  induction evs generalizing w with
  | nil =>
    constructor
    · simp [runTrace, scheduledNums]
    · exact Nat.le_refl _
  | cons ev evs ih =>
    obtain ⟨k1, hs1, hc1⟩ := step_sched o w ev h
    obtain ⟨ih1, ih2⟩ := ih (step o w ev).1 (step_preserves_name o w ev h)
    rw [hc1] at ih1 ih2
    simp only [runTrace]
    rw [scheduledNums_append, hs1, ih1]
    constructor
    · have happ := List.range'_append w.enc.count k1
        ((runTrace o (step o w ev).1 evs).1.enc.count - (w.enc.count + k1)) 1
      rw [Nat.one_mul] at happ
      rw [happ]
      congr 1
      omega
    · omega

/-- Witness for claim C5: a started session receiving two frames, one
out-of-order completion, then a third frame, assigns indices 0, 1, 2. -/
theorem claim5_witness :
    scheduledNums
        (runTrace ⟨"f", "v", false, false⟩
          { selfId := "w", enc := { name := some "n" }, registry := ["w"] }
          [Event.frame ("data:image/png;base64," ++ "AA"),
           Event.frame ("data:image/png;base64," ++ "BB"),
           Event.writeComplete 1 true,
           Event.frame ("data:image/png;base64," ++ "CC")]).2
      = List.range' 0 3 :=
  (claim5_frame_indices ⟨"f", "v", false, false⟩
    { selfId := "w", enc := { name := some "n" }, registry := ["w"] } _ (by decide)).1

/-- Claim C7 (counterexample): after `start` and `end` (the Ending
phase — `ended` is true), a well-formed frame command is still accepted:
it schedules a write and raises the in-flight counter instead of
producing the NotStarted error and leaving the session unchanged. -/
theorem claim7_counterexample :
    (runTrace ⟨"f", "v", false, false⟩
        { selfId := "w", registry := ["w"] }
        [Event.start {}, Event.endCmd]).1.enc.ended = true
    ∧ (step ⟨"f", "v", false, false⟩
        (runTrace ⟨"f", "v", false, false⟩
          { selfId := "w", registry := ["w"] }
          [Event.start {}, Event.endCmd]).1
        (Event.frame "data:image/png;base64,AA")).2
      = [Effect.scheduleWrite 0 "f/untitled-w-0.png"]
    ∧ (step ⟨"f", "v", false, false⟩
        (runTrace ⟨"f", "v", false, false⟩
          { selfId := "w", registry := ["w"] }
          [Event.start {}, Event.endCmd]).1
        (Event.frame "data:image/png;base64,AA")).1.enc.numWriting = 1 := by decide

/-- The frame file path `path.join(options.frameDir, name + "-" + frameNum + ".png")`
of `handleFrame` (line 307). -/
def frameFile (o : Options) (nm : String) (k : Nat) : String :=
  pathJoin o.frameDir (nm ++ "-" ++ toString k ++ ".png")

/-- Claim C7 (amended): a frame command yields the "video not started"
error, with no state change, exactly when the session name is unset
(before the first start, or after a pipeline failure cleared it); in
every state with a name — which includes the Ending and Assembling
phases — a frame with the expected header is accepted: it is assigned
index `count`, the counters advance, and its write is scheduled. -/
theorem claim7_frame_accepted_iff_named (o : Options) (s : EncoderState) (u : String) :
    (s.name = none →
      handleFrame o s u = (s, [Effect.errorMsg "video not started"]))
    ∧ (∀ nm, s.name = some nm → hasHeader u = true →
      (handleFrame o s u).1.count = s.count + 1
      ∧ (handleFrame o s u).1.numWriting = s.numWriting + 1
      ∧ (handleFrame o s u).1.pending = s.pending ++ [⟨s.count, frameFile o nm s.count⟩]
      ∧ (handleFrame o s u).2 = [Effect.scheduleWrite s.count (frameFile o nm s.count)]) := by
  constructor
  · intro h
    unfold handleFrame
    simp only [h]
  · intro nm hnm hh
    unfold handleFrame
    simp only [hnm]
    rw [if_neg (by simp [hh])]
    exact ⟨rfl, rfl, rfl, rfl⟩

/-- Witness for the amended claim C7 at a started session and a
well-formed frame payload. -/
theorem claim7_witness :
    (handleFrame ⟨"f", "v", false, false⟩ { name := some "n" } "data:image/png;base64,AA").1.count = 0 + 1
    ∧ (handleFrame ⟨"f", "v", false, false⟩ { name := some "n" } "data:image/png;base64,AA").1.numWriting = 0 + 1
    ∧ (handleFrame ⟨"f", "v", false, false⟩ { name := some "n" } "data:image/png;base64,AA").1.pending = [] ++ [⟨0, frameFile ⟨"f", "v", false, false⟩ "n" 0⟩]
    ∧ (handleFrame ⟨"f", "v", false, false⟩ { name := some "n" } "data:image/png;base64,AA").2 = [Effect.scheduleWrite 0 (frameFile ⟨"f", "v", false, false⟩ "n" 0)] :=
  (claim7_frame_accepted_iff_named ⟨"f", "v", false, false⟩
      { name := some "n" } "data:image/png;base64,AA").2 "n" rfl (by decide)

/-- Claim C8: a `start` received while a session is in progress (its
`name` is set, which holds throughout the Capturing, Ending and
Assembling phases) is rejected with the already-in-progress error,
and every session field — name, frame counter, frame list, frame rate,
extension, codec, ended flag — is returned unchanged. -/
theorem claim8_start_rejected_unchanged (o : Options) (id : String)
    (s : EncoderState) (d : StartData) (h : s.name.isSome = true) :
    handleStart o id s d = (s, [Effect.errorMsg "video already in progress"]) := by
  unfold handleStart
  rw [if_pos h]

/-- Witness for claim C8: a second `start` against a live session. -/
theorem claim8_witness :
    handleStart ⟨"f", "v", false, false⟩ "w"
        { name := some "n", count := 2, ended := true } { name := some "other" }
      = ({ name := some "n", count := 2, ended := true },
         [Effect.errorMsg "video already in progress"]) :=
  claim8_start_rejected_unchanged ⟨"f", "v", false, false⟩ "w"
    { name := some "n", count := 2, ended := true } { name := some "other" } (by decide)

theorem cleanup_fst_connected (o : Options) (s : EncoderState) :
    (cleanup o s).1.connected = s.connected := by
  unfold cleanup; split_ifs <;> rfl

theorem cleanup_fst_pending (o : Options) (s : EncoderState) :
    (cleanup o s).1.pending = s.pending := by
  unfold cleanup; split_ifs <;> rfl

theorem step_disconnect_enc (o : Options) (w : World) :
    (step o w Event.disconnect).1.enc
      = (cleanup o { w.enc with connected := false }).1 := rfl

theorem step_disconnect_registry (o : Options) (w : World) :
    (step o w Event.disconnect).1.registry = spliceRemove w.registry w.selfId := rfl

/-- Once `connected` is false it stays false: no handler sets it back. -/
theorem step_preserves_disconnected (o : Options) (v : World) (ev : Event)
    (h : v.enc.connected = false) : (step o v ev).1.enc.connected = false := by
  cases ev with
  | start d =>
    simp only [step]
    unfold handleStart
    split_ifs <;> exact h
  | frame u =>
    simp only [step]
    unfold handleFrame
    cases hn : v.enc.name with
    | none => exact h
    | some nm =>
      simp only [hn]
      split_ifs <;> exact h
  | endCmd =>
    simp only [step]
    unfold handleEnd
    cases hn : v.enc.name with
    | none => exact h
    | some nm =>
      simp only [hn]
      exact h
  | writeComplete i ok =>
    simp only [step]
    unfold handleWriteComplete
    cases hp : v.enc.pending[i]? with
    | none => simp only [hp]; exact h
    | some pw =>
      cases ok with
      | false => simp only [hp]; exact h
      | true =>
        simp only [hp]
        rw [if_pos h]
        exact h
  | disconnect =>
    simp only [step]
    rw [show (cleanup o { v.enc with connected := false }).1.connected
          = ({ v.enc with connected := false } : EncoderState).connected
        from cleanup_fst_connected o _]

/-- Claim C10: a `disconnect` marks the session disconnected, removes
it from the process-wide registry exactly once (its multiplicity drops
from one to zero and exactly one element leaves the list), and leaves
the in-flight writes pending; being disconnected is preserved by every
later event, and in any disconnected state the successful completion of
any pending write deletes the just-written file — its only effect is
the deletion: the file does not survive on disk, the frame list is
unchanged and no frame acknowledgment is sent. -/
theorem claim10_disconnect_pending_writes (o : Options) (w : World)
    (hreg : w.registry.count w.selfId = 1) :
    ((step o w Event.disconnect).1.enc.connected = false
      ∧ (step o w Event.disconnect).1.registry.count w.selfId = 0
      ∧ (step o w Event.disconnect).1.registry.length + 1 = w.registry.length
      ∧ (step o w Event.disconnect).1.enc.pending = w.enc.pending)
    ∧ (∀ v : World, v.enc.connected = false →
        (∀ ev, (step o v ev).1.enc.connected = false)
        ∧ (∀ i pw, v.enc.pending[i]? = some pw →
            (step o v (Event.writeComplete i true)).2 = [Effect.deleteFile pw.filename]
            ∧ (step o v (Event.writeComplete i true)).1.enc.frames = v.enc.frames
            ∧ pw.filename ∉ (step o v (Event.writeComplete i true)).1.fs)) := by
  have hmem : w.selfId ∈ w.registry := by
    rw [← List.count_pos_iff]
    omega
  constructor
  · refine ⟨?_, ?_, ?_, ?_⟩
    · rw [step_disconnect_enc, cleanup_fst_connected]
    · rw [step_disconnect_registry]
      unfold spliceRemove
      rw [if_pos hmem, List.count_erase_self, hreg]
    · rw [step_disconnect_registry]
      unfold spliceRemove
      rw [if_pos hmem, List.length_erase_of_mem hmem]
      have := List.length_pos_of_mem hmem
      omega
    · rw [step_disconnect_enc, cleanup_fst_pending]
  · intro v hv
    refine ⟨fun ev => step_preserves_disconnected o v ev hv, ?_⟩
    intro i pw hp
    refine ⟨?_, ?_, ?_⟩
    · simp only [step]
      unfold handleWriteComplete
      simp only [hp]
      rw [if_pos hv]
    · simp only [step]
      unfold handleWriteComplete
      simp only [hp]
      rw [if_pos hv]
    · have hfs : (step o v (Event.writeComplete i true)).1.fs
          = (insert pw.filename v.fs).erase pw.filename := by
        simp only [step, hp]
        unfold handleWriteComplete
        simp only [hp]
        rw [if_pos hv]
        rfl
      rw [hfs]
      exact Finset.not_mem_erase _ _

/-- Witness for claim C10 at a session with one pending write. -/
theorem claim10_witness :
    ((step ⟨"f", "v", false, false⟩ { selfId := "w", enc := { name := some "n", numWriting := 1, pending := [⟨0, "f/n-0.png"⟩] }, registry := ["w"] } Event.disconnect).1.enc.connected = false
      ∧ (step ⟨"f", "v", false, false⟩ { selfId := "w", enc := { name := some "n", numWriting := 1, pending := [⟨0, "f/n-0.png"⟩] }, registry := ["w"] } Event.disconnect).1.registry.count "w" = 0
      ∧ (step ⟨"f", "v", false, false⟩ { selfId := "w", enc := { name := some "n", numWriting := 1, pending := [⟨0, "f/n-0.png"⟩] }, registry := ["w"] } Event.disconnect).1.registry.length + 1 = (["w"] : List String).length
      ∧ (step ⟨"f", "v", false, false⟩ { selfId := "w", enc := { name := some "n", numWriting := 1, pending := [⟨0, "f/n-0.png"⟩] }, registry := ["w"] } Event.disconnect).1.enc.pending = [⟨0, "f/n-0.png"⟩])
    ∧ (∀ v : World, v.enc.connected = false →
        (∀ ev, (step ⟨"f", "v", false, false⟩ v ev).1.enc.connected = false)
        ∧ (∀ i pw, v.enc.pending[i]? = some pw →
            (step ⟨"f", "v", false, false⟩ v (Event.writeComplete i true)).2 = [Effect.deleteFile pw.filename]
            ∧ (step ⟨"f", "v", false, false⟩ v (Event.writeComplete i true)).1.enc.frames = v.enc.frames
            ∧ pw.filename ∉ (step ⟨"f", "v", false, false⟩ v (Event.writeComplete i true)).1.fs)) :=
  claim10_disconnect_pending_writes ⟨"f", "v", false, false⟩
    { selfId := "w", enc := { name := some "n", numWriting := 1, pending := [⟨0, "f/n-0.png"⟩] }, registry := ["w"] }
    (by decide)

/-- The four stages of the assembly pipeline (lines 143-293): the
frame-sequence encode of `checkForEnd`, the variable-frame-rate remux
of `createVfrVideo` (mp4fpsmod), the audio mux of `createCfrVideo`
(ffmpeg `-map 0:v -map 1:a -shortest`), and the text-overlay burn-in of
`createFinalVideo`. -/
inductive Stage where
  | encode
  | vfrRemux
  | audioMux
  | overlay
deriving DecidableEq

/-- Terminal outcome of an `FFMpegRunner` invocation: exactly one of
the `done` and `error` events (stages 1 and 4 listen to both). -/
inductive RunnerOutcome where
  | done
  | error
deriving DecidableEq

/-- The outcomes of the four external invocations of one pipeline run.
Stages 2 and 3 are plain `spawn`ed processes, observed only through
their `close` event, so their outcome is an exit code. -/
structure PipelineOutcomes where
  stage1 : RunnerOutcome
  stage2Exit : Nat
  stage3Exit : Nat
  stage4 : RunnerOutcome
deriving DecidableEq

/-- What one pipeline run did: the stages whose external tool was
invoked, in order; the number of `error` events sent to the client; the
number of terminal `end` events sent; the resulting file set; whether
`handleFFMpegError` cleared the session name. -/
structure PipelineResult where
  attempted : List Stage
  errorEvents : Nat
  endEvents : Nat
  fs : Finset String
  nameCleared : Bool

/-- Stage-1 output `path.join(options.videoDir, name + extension)` (line 145). -/
def rawVideoPath (o : Options) (nm ext : String) : String := pathJoin o.videoDir (nm ++ ext)

/-- Stage-2 output `path.join(options.frameDir, "vfr-" + name + ".mp4")` (line 181). -/
def vfrPath (o : Options) (nm : String) : String := pathJoin o.frameDir ("vfr-" ++ nm ++ ".mp4")

/-- Stage-3 output `path.join(options.frameDir, "cfr-" + name + ".mp4")` (line 204). -/
def cfrPath (o : Options) (nm : String) : String := pathJoin o.frameDir ("cfr-" ++ nm ++ ".mp4")

/-- Stage-4 output `path.join(options.frameDir, "final-" + name + ".mp4")` (line 275). -/
def finalPath (o : Options) (nm : String) : String := pathJoin o.frameDir ("final-" ++ nm ++ ".mp4")

/-- The timestamp file `path.join(options.frameDir, "ts-" + name + ".txt")`
written by `handleTimestamps` (line 340) and read by stage 2 (line 182). -/
def tsPath (o : Options) (nm : String) : String := pathJoin o.frameDir ("ts-" ++ nm ++ ".txt")

/-- The audio track `path.join(options.frameDir, name + ".mp3")` written
by `handleAudioFile` (line 352) and read by stage 3 (line 200). -/
def audioPath (o : Options) (nm : String) : String := pathJoin o.frameDir (nm ++ ".mp3")

/-- Modelled from the spec: `utils.deleteNoFail` (its source,
src/lib/utils.js, is not among the included files; the spec says
deletion is best-effort and must not raise if a file is already
absent). On the file-set model it is the total removal of one path:
defined for every file set, including those not containing the path. -/
def deleteNoFail (fs : Finset String) (p : String) : Finset String := fs.erase p

/-- The effect of `cleanup` (lines 114-128) on the file set: apply
`deleteNoFail` to each recorded frame file (when kept frames are not
requested) and to the five fixed paths under `options.videoDir`. -/
def runCleanupFs (o : Options) (nm : String) (frames : List String)
    (fs : Finset String) : Finset String :=
  (cleanupDeletes o nm frames).foldl deleteNoFail fs

/-- The pipeline run started by `checkForEnd` (lines 143-293), as a
function of the four external outcomes. Transliterated control flow:
stage 1 reports through `FFMpegRunner`, whose `error` event runs
`handleFFMpegError` (one error event, `cleanup`, name cleared) and
whose `done` event calls `createVfrVideo`; stages 2 and 3 are `spawn`ed
and only their `close` event is handled, which calls the next stage
function regardless of the exit code; stage 4 again reports through
`FFMpegRunner`, with `done` registering the final artifact, sending the
terminal `end` event and running `cleanup`. Each external tool writes
its output file only when it succeeds. -/
def runPipeline (o : Options) (nm ext : String) (frames : List String)
    (out : PipelineOutcomes) (fs0 : Finset String) : PipelineResult :=
  match out.stage1 with
  | RunnerOutcome.error =>
    { attempted := [Stage.encode], errorEvents := 1, endEvents := 0,
      fs := runCleanupFs o nm frames fs0, nameCleared := true }
  | RunnerOutcome.done =>
    let fs1 := insert (rawVideoPath o nm ext) fs0
    let fs2 := if out.stage2Exit = 0 then insert (vfrPath o nm) fs1 else fs1
    let fs3 := if out.stage3Exit = 0 then insert (cfrPath o nm) fs2 else fs2
    match out.stage4 with
    | RunnerOutcome.error =>
      { attempted := [Stage.encode, Stage.vfrRemux, Stage.audioMux, Stage.overlay],
        errorEvents := 1, endEvents := 0,
        fs := runCleanupFs o nm frames fs3, nameCleared := true }
    | RunnerOutcome.done =>
      { attempted := [Stage.encode, Stage.vfrRemux, Stage.audioMux, Stage.overlay],
        errorEvents := 0, endEvents := 1,
        fs := runCleanupFs o nm frames (insert (finalPath o nm) fs3),
        nameCleared := false }

/-- Claim C2 (counterexample): a run in which stage 2 fails (mp4fpsmod
exits with code 1) still attempts stages 3 and 4 and surfaces no error
event at all — its `close` handler proceeds unconditionally. -/
theorem claim2_counterexample :
    (1 : Nat) ≠ 0
    ∧ (runPipeline ⟨"f", "v", false, false⟩ "n" ".mp4" []
        ⟨RunnerOutcome.done, 1, 0, RunnerOutcome.done⟩ ∅).attempted
      = [Stage.encode, Stage.vfrRemux, Stage.audioMux, Stage.overlay]
    ∧ (runPipeline ⟨"f", "v", false, false⟩ "n" ".mp4" []
        ⟨RunnerOutcome.done, 1, 0, RunnerOutcome.done⟩ ∅).errorEvents = 0 := by
  refine ⟨by omega, rfl, rfl⟩

/-- Claim C2 (amended): only the two stages monitored through
`FFMpegRunner` abort the pipeline: a stage-1 failure stops before any
later stage and surfaces exactly one error event and no end event, and
a stage-4 failure surfaces exactly one error event and no end event;
failures of stages 2 and 3, which are spawned with only a `close`
listener, neither abort the remaining stages nor surface any error —
a run whose runner stages succeed emits zero error events and one end
event whatever the stage-2 and stage-3 exit codes. -/
theorem claim2_runner_failures_abort (o : Options) (nm ext : String)
    (frames : List String) (out : PipelineOutcomes) (fs0 : Finset String) :
    (out.stage1 = RunnerOutcome.error →
      (runPipeline o nm ext frames out fs0).attempted = [Stage.encode]
      ∧ (runPipeline o nm ext frames out fs0).errorEvents = 1
      ∧ (runPipeline o nm ext frames out fs0).endEvents = 0)
    ∧ (out.stage1 = RunnerOutcome.done → out.stage4 = RunnerOutcome.error →
      (runPipeline o nm ext frames out fs0).errorEvents = 1
      ∧ (runPipeline o nm ext frames out fs0).endEvents = 0)
    ∧ (out.stage1 = RunnerOutcome.done → out.stage4 = RunnerOutcome.done →
      (runPipeline o nm ext frames out fs0).errorEvents = 0
      ∧ (runPipeline o nm ext frames out fs0).endEvents = 1) := by
  obtain ⟨o1, e2, e3, o4⟩ := out
  refine ⟨fun h1 => ?_, fun h1 h4 => ?_, fun h1 h4 => ?_⟩
  · cases o1 with
    | error => exact ⟨rfl, rfl, rfl⟩
    | done => cases h1
  · cases o1 with
    | error => cases h1
    | done =>
      cases o4 with
      | error => exact ⟨rfl, rfl⟩
      | done => cases h4
  · cases o1 with
    | error => cases h1
    | done =>
      cases o4 with
      | error => cases h4
      | done => exact ⟨rfl, rfl⟩

/-- Witness for the amended claim C2 at a stage-1 failure. -/
theorem claim2_witness :
    (runPipeline ⟨"f", "v", false, false⟩ "n" ".mp4" []
        ⟨RunnerOutcome.error, 0, 0, RunnerOutcome.done⟩ ∅).attempted = [Stage.encode]
    ∧ (runPipeline ⟨"f", "v", false, false⟩ "n" ".mp4" []
        ⟨RunnerOutcome.error, 0, 0, RunnerOutcome.done⟩ ∅).errorEvents = 1
    ∧ (runPipeline ⟨"f", "v", false, false⟩ "n" ".mp4" []
        ⟨RunnerOutcome.error, 0, 0, RunnerOutcome.done⟩ ∅).endEvents = 0 :=
  (claim2_runner_failures_abort ⟨"f", "v", false, false⟩ "n" ".mp4" []
      ⟨RunnerOutcome.error, 0, 0, RunnerOutcome.done⟩ ∅).1 rfl

/-- Claim C4 (counterexample): in a session that supplied neither a
timestamp file nor an audio track (the file set is empty), a successful
run still executes stage 2 (the vfr remux) and stage 3 (the audio mux):
nothing in the code consults whether those inputs exist. -/
theorem claim4_counterexample :
    tsPath ⟨"f", "v", false, false⟩ "n" ∉ (∅ : Finset String)
    ∧ audioPath ⟨"f", "v", false, false⟩ "n" ∉ (∅ : Finset String)
    ∧ Stage.vfrRemux ∈ (runPipeline ⟨"f", "v", false, false⟩ "n" ".mp4" []
        ⟨RunnerOutcome.done, 0, 0, RunnerOutcome.done⟩ ∅).attempted
    ∧ Stage.audioMux ∈ (runPipeline ⟨"f", "v", false, false⟩ "n" ".mp4" []
        ⟨RunnerOutcome.done, 0, 0, RunnerOutcome.done⟩ ∅).attempted := by
  exact ⟨Finset.not_mem_empty _, Finset.not_mem_empty _, by decide, by decide⟩

/-- Claim C4 (amended): stages 2 and 3 are executed unconditionally
whenever stage 1 completes: the pipeline never skips the
variable-frame-rate remux or the audio mux, whether or not a timestamp
file or an audio track was supplied. -/
theorem claim4_stages_unconditional (o : Options) (nm ext : String)
    (frames : List String) (out : PipelineOutcomes) (fs0 : Finset String)
    (h : out.stage1 = RunnerOutcome.done) :
    Stage.vfrRemux ∈ (runPipeline o nm ext frames out fs0).attempted
    ∧ Stage.audioMux ∈ (runPipeline o nm ext frames out fs0).attempted := by
  obtain ⟨o1, e2, e3, o4⟩ := out
  cases o1 with
  | error => cases h
  | done =>
    cases o4 <;>
      exact ⟨List.Mem.tail _ (List.Mem.head _),
             List.Mem.tail _ (List.Mem.tail _ (List.Mem.head _))⟩

/-- Witness for the amended claim C4. -/
theorem claim4_witness :
    Stage.vfrRemux ∈ (runPipeline ⟨"f", "v", false, false⟩ "n" ".mp4" []
        ⟨RunnerOutcome.done, 1, 1, RunnerOutcome.done⟩ ∅).attempted
    ∧ Stage.audioMux ∈ (runPipeline ⟨"f", "v", false, false⟩ "n" ".mp4" []
        ⟨RunnerOutcome.done, 1, 1, RunnerOutcome.done⟩ ∅).attempted :=
  claim4_stages_unconditional ⟨"f", "v", false, false⟩ "n" ".mp4" []
    ⟨RunnerOutcome.done, 1, 1, RunnerOutcome.done⟩ ∅ rfl

theorem mem_runCleanupFs (o : Options) (nm : String) (frames : List String)
    (fs : Finset String) (y : String) :
    y ∈ runCleanupFs o nm frames fs ↔ y ∈ fs ∧ y ∉ cleanupDeletes o nm frames := by
  unfold runCleanupFs
  generalize cleanupDeletes o nm frames = L
  induction L generalizing fs with
  | nil => simp
  | cons a t ih =>
    rw [List.foldl_cons, ih]
    unfold deleteNoFail
    simp only [Finset.mem_erase, List.mem_cons]
    constructor
    · rintro ⟨⟨hne, hin⟩, hnt⟩
      exact ⟨hin, fun hc => hc.elim (fun he => hne he) hnt⟩
    · rintro ⟨hin, hn⟩
      exact ⟨⟨fun he => hn (Or.inl he), hin⟩, fun ht => hn (Or.inr ht)⟩

/-- Claim C3 (counterexample): with distinct frame and video
directories, a stage-4 failure leaves the session's timestamp file and
the vfr intermediate on disk: both live under `options.frameDir`, while
`cleanup` deletes the corresponding paths under `options.videoDir`. -/
theorem claim3_counterexample :
    tsPath ⟨"frames", "videos", false, false⟩ "n"
        ∈ (runPipeline ⟨"frames", "videos", false, false⟩ "n" ".mp4" []
            ⟨RunnerOutcome.done, 0, 0, RunnerOutcome.error⟩
            (insert (tsPath ⟨"frames", "videos", false, false⟩ "n") ∅)).fs
    ∧ vfrPath ⟨"frames", "videos", false, false⟩ "n"
        ∈ (runPipeline ⟨"frames", "videos", false, false⟩ "n" ".mp4" []
            ⟨RunnerOutcome.done, 0, 0, RunnerOutcome.error⟩
            (insert (tsPath ⟨"frames", "videos", false, false⟩ "n") ∅)).fs := by decide

/-- Claim C3 (amended): the claim holds only when the frame and video
directories coincide and the extension is ".mp4" (and frames are not
kept): then, after a failure reported by a runner stage (stage 1 or
stage 4), no final artifact remains (provided none pre-existed), the
timestamp file, vfr and cfr intermediates, audio track, initial
rendered video and recorded frame files are all removed, and deletion
is total — deleting an absent path is a no-op rather than an error.
Failures of stages 2 and 3 trigger no cleanup at all, and with
differing directories the frameDir intermediates survive. -/
theorem claim3_cleanup_on_runner_failure (o : Options) (nm ext : String)
    (frames : List String) (out : PipelineOutcomes) (fs0 : Finset String)
    (hdir : o.frameDir = o.videoDir) (hkeep : o.keepFrames = false)
    (hext : ext = ".mp4")
    (hfail : out.stage1 = RunnerOutcome.error ∨ out.stage4 = RunnerOutcome.error)
    (hfin : finalPath o nm ∉ fs0) :
    finalPath o nm ∉ (runPipeline o nm ext frames out fs0).fs
    ∧ tsPath o nm ∉ (runPipeline o nm ext frames out fs0).fs
    ∧ vfrPath o nm ∉ (runPipeline o nm ext frames out fs0).fs
    ∧ cfrPath o nm ∉ (runPipeline o nm ext frames out fs0).fs
    ∧ audioPath o nm ∉ (runPipeline o nm ext frames out fs0).fs
    ∧ rawVideoPath o nm ext ∉ (runPipeline o nm ext frames out fs0).fs
    ∧ (∀ f ∈ frames, f ∉ (runPipeline o nm ext frames out fs0).fs)
    ∧ (∀ (fsx : Finset String) (p : String), p ∉ fsx → deleteNoFail fsx p = fsx) := by
  have hdel : ∀ (fsx : Finset String) (y : String), y ∈ cleanupDeletes o nm frames →
      y ∉ runCleanupFs o nm frames fsx := by
    intro fsx y hy
    rw [mem_runCleanupFs]
    rintro ⟨-, hn⟩
    exact hn hy
  have hmem_ts : tsPath o nm ∈ cleanupDeletes o nm frames := by
    unfold cleanupDeletes tsPath
    rw [hdir]
    simp [List.mem_append]
  have hmem_vfr : vfrPath o nm ∈ cleanupDeletes o nm frames := by
    unfold cleanupDeletes vfrPath
    rw [hdir]
    simp [List.mem_append]
  have hmem_cfr : cfrPath o nm ∈ cleanupDeletes o nm frames := by
    unfold cleanupDeletes cfrPath
    rw [hdir]
    simp [List.mem_append]
  have hmem_audio : audioPath o nm ∈ cleanupDeletes o nm frames := by
    unfold cleanupDeletes audioPath
    rw [hdir]
    simp [List.mem_append]
  have hmem_raw : rawVideoPath o nm ext ∈ cleanupDeletes o nm frames := by
    unfold cleanupDeletes rawVideoPath
    rw [hext]
    simp [List.mem_append]
  have hmem_frame : ∀ f ∈ frames, f ∈ cleanupDeletes o nm frames := by
    intro f hf
    unfold cleanupDeletes
    apply List.mem_append_left
    rw [if_pos ⟨List.ne_nil_of_mem hf, hkeep⟩]
    exact hf
  have hlen : ∀ a b : String, a.length ≠ b.length → a ≠ b := by
    intro a b hl he
    exact hl (he ▸ rfl)
  have l1 : ("/" : String).length = 1 := rfl
  have l2 : ("final-" : String).length = 6 := rfl
  have l3 : (".mp4" : String).length = 4 := rfl
  have l4 : ("vfr-" : String).length = 4 := rfl
  have l5 : ("cfr-" : String).length = 4 := rfl
  have hlen_final : (finalPath o nm).length = o.frameDir.length + nm.length + 11 := by
    simp only [finalPath, pathJoin, String.length_append, l1, l2, l3]
    omega
  have hne_raw : finalPath o nm ≠ rawVideoPath o nm ext := by
    apply hlen
    rw [hlen_final]
    simp only [rawVideoPath, pathJoin, String.length_append, l1, hext, l3, ← hdir]
    omega
  have hne_vfr : finalPath o nm ≠ vfrPath o nm := by
    apply hlen
    rw [hlen_final]
    simp only [vfrPath, pathJoin, String.length_append, l1, l4, l3]
    omega
  have hne_cfr : finalPath o nm ≠ cfrPath o nm := by
    apply hlen
    rw [hlen_final]
    simp only [cfrPath, pathJoin, String.length_append, l1, l5, l3]
    omega
  obtain ⟨o1, e2, e3, o4⟩ := out
  have hfinal_mid : ∀ fsx : Finset String, finalPath o nm ∉ fsx →
      finalPath o nm ∉ runCleanupFs o nm frames fsx := by
    intro fsx hx
    rw [mem_runCleanupFs]
    rintro ⟨hin, -⟩
    exact hx hin
  cases o1 with
  | error =>
    have hfs : (runPipeline o nm ext frames ⟨RunnerOutcome.error, e2, e3, o4⟩ fs0).fs
        = runCleanupFs o nm frames fs0 := rfl
    rw [hfs]
    refine ⟨hfinal_mid fs0 hfin, hdel _ _ hmem_ts, hdel _ _ hmem_vfr, hdel _ _ hmem_cfr,
      hdel _ _ hmem_audio, hdel _ _ hmem_raw, fun f hf => hdel _ _ (hmem_frame f hf),
      fun fsx p hp => Finset.erase_eq_of_not_mem hp⟩
  | done =>
    cases o4 with
    | done =>
      rcases hfail with h1 | h4
      · cases h1
      · cases h4
    | error =>
      have hfs : (runPipeline o nm ext frames ⟨RunnerOutcome.done, e2, e3, RunnerOutcome.error⟩ fs0).fs
          = runCleanupFs o nm frames
              (if e3 = 0 then
                insert (cfrPath o nm)
                  (if e2 = 0 then insert (vfrPath o nm) (insert (rawVideoPath o nm ext) fs0)
                   else insert (rawVideoPath o nm ext) fs0)
               else
                (if e2 = 0 then insert (vfrPath o nm) (insert (rawVideoPath o nm ext) fs0)
                 else insert (rawVideoPath o nm ext) fs0)) := rfl
      rw [hfs]
      refine ⟨?_, hdel _ _ hmem_ts, hdel _ _ hmem_vfr, hdel _ _ hmem_cfr,
        hdel _ _ hmem_audio, hdel _ _ hmem_raw, fun f hf => hdel _ _ (hmem_frame f hf),
        fun fsx p hp => Finset.erase_eq_of_not_mem hp⟩
      apply hfinal_mid
      intro hin
      split_ifs at hin <;>
        simp [Finset.mem_insert, hne_cfr, hne_vfr, hne_raw, hfin] at hin

/-- Witness for the amended claim C3: one directory for frames and
videos, a stage-4 failure; every artifact of the session is gone. -/
theorem claim3_witness :
    finalPath ⟨"d", "d", false, false⟩ "n"
        ∉ (runPipeline ⟨"d", "d", false, false⟩ "n" ".mp4" ["d/n-0.png"]
            ⟨RunnerOutcome.done, 0, 0, RunnerOutcome.error⟩
            (insert (tsPath ⟨"d", "d", false, false⟩ "n") ∅)).fs
    ∧ tsPath ⟨"d", "d", false, false⟩ "n"
        ∉ (runPipeline ⟨"d", "d", false, false⟩ "n" ".mp4" ["d/n-0.png"]
            ⟨RunnerOutcome.done, 0, 0, RunnerOutcome.error⟩
            (insert (tsPath ⟨"d", "d", false, false⟩ "n") ∅)).fs
    ∧ vfrPath ⟨"d", "d", false, false⟩ "n"
        ∉ (runPipeline ⟨"d", "d", false, false⟩ "n" ".mp4" ["d/n-0.png"]
            ⟨RunnerOutcome.done, 0, 0, RunnerOutcome.error⟩
            (insert (tsPath ⟨"d", "d", false, false⟩ "n") ∅)).fs
    ∧ cfrPath ⟨"d", "d", false, false⟩ "n"
        ∉ (runPipeline ⟨"d", "d", false, false⟩ "n" ".mp4" ["d/n-0.png"]
            ⟨RunnerOutcome.done, 0, 0, RunnerOutcome.error⟩
            (insert (tsPath ⟨"d", "d", false, false⟩ "n") ∅)).fs
    ∧ audioPath ⟨"d", "d", false, false⟩ "n"
        ∉ (runPipeline ⟨"d", "d", false, false⟩ "n" ".mp4" ["d/n-0.png"]
            ⟨RunnerOutcome.done, 0, 0, RunnerOutcome.error⟩
            (insert (tsPath ⟨"d", "d", false, false⟩ "n") ∅)).fs
    ∧ rawVideoPath ⟨"d", "d", false, false⟩ "n" ".mp4"
        ∉ (runPipeline ⟨"d", "d", false, false⟩ "n" ".mp4" ["d/n-0.png"]
            ⟨RunnerOutcome.done, 0, 0, RunnerOutcome.error⟩
            (insert (tsPath ⟨"d", "d", false, false⟩ "n") ∅)).fs
    ∧ (∀ f ∈ (["d/n-0.png"] : List String),
        f ∉ (runPipeline ⟨"d", "d", false, false⟩ "n" ".mp4" ["d/n-0.png"]
            ⟨RunnerOutcome.done, 0, 0, RunnerOutcome.error⟩
            (insert (tsPath ⟨"d", "d", false, false⟩ "n") ∅)).fs)
    ∧ (∀ (fsx : Finset String) (p : String), p ∉ fsx → deleteNoFail fsx p = fsx) :=
  claim3_cleanup_on_runner_failure ⟨"d", "d", false, false⟩ "n" ".mp4" ["d/n-0.png"]
    ⟨RunnerOutcome.done, 0, 0, RunnerOutcome.error⟩
    (insert (tsPath ⟨"d", "d", false, false⟩ "n") ∅)
    rfl rfl rfl (Or.inr rfl) (by decide)

/-- JavaScript number values that `frameNum / frames.length` can take
in `handleFFMpegFrame` (lines 137-141). Division of two nonnegative
small integers is exact; in JavaScript `0/0` is `NaN` and `n/0` for
positive `n` is `Infinity`, and neither non-finite value lies in any
closed interval. -/
inductive JsNum where
  | nan
  | inf
  | fin (q : ℚ)
deriving DecidableEq

/-- JavaScript division of two natural numbers. -/
def jsDivNat (a b : Nat) : JsNum :=
  if b = 0 then (if a = 0 then JsNum.nan else JsNum.inf)
  else JsNum.fin ((a : ℚ) / (b : ℚ))

/-- `handleFFMpegFrame` (lines 137-141): the progress value forwarded
to the client is `frameNum / frames.length`. -/
def handleFFMpegFrame (frameNum : Nat) (frames : List String) : JsNum :=
  jsDivNat frameNum frames.length

/-- Membership of a JavaScript number in the closed interval [0,1];
the non-finite values NaN and Infinity are in no closed interval. -/
def JsNum.inUnitInterval : JsNum → Prop
  | JsNum.fin q => 0 ≤ q ∧ q ≤ 1
  | _ => False

/-- Claim C9 (counterexample): for a session whose persisted frame list
is empty, the progress value is `0 / 0 = NaN`, which is not in [0,1]. -/
theorem claim9_counterexample :
    handleFFMpegFrame 0 [] = JsNum.nan
    ∧ ¬ (handleFFMpegFrame 0 []).inUnitInterval :=
  ⟨rfl, fun h => h⟩

/-- Claim C9 (amended): whenever the persisted frame list is nonempty
and the reported frame index does not exceed the frame count, the
forwarded progress value `frameNum / frames.length` is finite and lies
in the closed interval [0,1]; with an empty frame list the division by
zero produces a non-finite value (NaN or Infinity) instead. -/
theorem claim9_progress_in_unit_interval (frameNum : Nat) (frames : List String)
    (hne : frames ≠ []) (hle : frameNum ≤ frames.length) :
    (handleFFMpegFrame frameNum frames).inUnitInterval := by
  have hpos : 0 < frames.length := List.length_pos.mpr hne
  unfold handleFFMpegFrame jsDivNat
  rw [if_neg (by omega)]
  have hq : (0 : ℚ) < (frames.length : ℚ) := by exact_mod_cast hpos
  constructor
  · exact div_nonneg (Nat.cast_nonneg _) (le_of_lt hq)
  · rw [div_le_one hq]
    exact_mod_cast hle

/-- Witness for the amended claim C9 at frame 1 of 2. -/
theorem claim9_witness :
    (handleFFMpegFrame 1 ["a", "b"]).inUnitInterval :=
  claim9_progress_in_unit_interval 1 ["a", "b"] (by simp) (by simp)

end VideoEncoder
